import Mathlib

/-!
Verification development for the `connect` repository cores:
* Core A - the userspace NAT'd TUN substrate (`wireguard/tun/tun_userspace.go`)
* Core B - the co-occurrence builder (`inspect/grouping/cooccurrence.go`) and
  the fixed-margin sweep-line overlap kernel (`FixedMarginOverlap`).

All machine integers are embedded as `Nat` with explicit reduction modulo
`2^64` (u64) or `2^256`-free `% 256` (u8) at the operations where Go wraps.
-/

namespace Spec2Proof

/-! ## Core B: the fixed-margin sweep-line kernel (`FixedMarginOverlap`)

The Go source operates on `uint64` timestamps.  We represent a u64 value as a
`Nat` below `U64 = 2^64`; `add64`/`sub64` are Go's wrapping `+`/`-` on u64.
-/

def U64 : Nat := 18446744073709551616

/-- Wrapping u64 addition (`a + b` in Go on `uint64`). -/
def add64 (a b : Nat) : Nat := (a + b) % U64

/-- Wrapping u64 subtraction (`a - b` in Go on `uint64`), for `a b < U64`. -/
def sub64 (a b : Nat) : Nat := (a + U64 - b) % U64

/-- One sweep event of `FixedMarginOverlap`: `eType` is 1 for start, 2 for
end; `eListID` is 1 for `times1`, 2 for `times2` (mirrors `fmEvent`). -/
structure fmEvent where
  eTime : Nat
  eType : Nat
  eListID : Nat
deriving DecidableEq

/-- The strict order computed by the `sort.Slice` comparator in
`FixedMarginOverlap`: time ascending, then `eType` ascending (so a start
event, `eType = 1`, sorts before an end event, `eType = 2`, at the same
time), then `eListID` ascending.  Written as the equivalent lexicographic
disjunction of the nested `if`s of the Go `less` function. -/
def fmLess (a b : fmEvent) : Prop :=
  a.eTime < b.eTime ∨
    (a.eTime = b.eTime ∧
      (a.eType < b.eType ∨ (a.eType = b.eType ∧ a.eListID < b.eListID)))

instance (a b : fmEvent) : Decidable (fmLess a b) := by
  unfold fmLess; infer_instance

/-- The non-strict companion: `fmLe a b` holds when the comparator does not
place `b` strictly before `a`.  `sort.Slice` guarantees exactly that the
result is sorted under this relation. -/
def fmLe (a b : fmEvent) : Prop := ¬ fmLess b a

instance (a b : fmEvent) : Decidable (fmLe a b) := by
  unfold fmLe; infer_instance

instance : IsTotal fmEvent fmLe where
  total a b := by
    unfold fmLe fmLess
    rcases a with ⟨t1, k1, l1⟩
    rcases b with ⟨t2, k2, l2⟩
    simp only
    omega

instance : IsTrans fmEvent fmLe where
  trans a b c := by
    unfold fmLe fmLess
    rcases a with ⟨t1, k1, l1⟩
    rcases b with ⟨t2, k2, l2⟩
    rcases c with ⟨t3, k3, l3⟩
    simp only
    omega

instance : IsAntisymm fmEvent fmLe where
  antisymm a b := by
    unfold fmLe fmLess
    rcases a with ⟨t1, k1, l1⟩
    rcases b with ⟨t2, k2, l2⟩
    simp only [fmEvent.mk.injEq]
    omega

/-- `addEvents` helper of `FixedMarginOverlap`: each timestamp `t` produces a
start event at `t - margin` and an end event at `t + margin`, in wrapping
u64 arithmetic (the Go source clamps nothing). -/
def fmAddEvents (times : List Nat) (listID : Nat) (margin : Nat) :
    List fmEvent :=
  times.flatMap fun t =>
    [⟨sub64 t margin, 1, listID⟩, ⟨add64 t margin, 2, listID⟩]

/-- The merged, sorted event list.  `sort.Slice` is an unstable sort; we
model it by insertion sort under `fmLe`, which agrees with any sort the Go
runtime may pick whenever all events are pairwise distinct (the comparator
is then a strict total order). -/
def fmSorted (times1 times2 : List Nat) (margin : Nat) : List fmEvent :=
  List.insertionSort fmLe (fmAddEvents times1 1 margin ++ fmAddEvents times2 2 margin)

/-- The sweep loop of `FixedMarginOverlap`.  `total` and `last` are u64;
the active counters are Go `int`s, embedded as `Int` (they may go
negative when an end event is processed while the counter is zero). -/
def fmSweep : List fmEvent → Nat → Int → Int → Nat → Nat
  | [], total, _, _, _ => total
  | e :: rest, total, a1, a2, last =>
    let total' := if 0 < a1 ∧ 0 < a2 then add64 total (sub64 e.eTime last) else total
    let a1' := if e.eType = 1 then (if e.eListID = 1 then a1 + 1 else a1)
               else (if e.eListID = 1 then a1 - 1 else a1)
    let a2' := if e.eType = 1 then (if e.eListID = 1 then a2 else a2 + 1)
               else (if e.eListID = 1 then a2 else a2 - 1)
    fmSweep rest total' a1' a2' e.eTime

/-- `FixedMarginOverlap(times1, times2, fixedMargin)` from the source. -/
def FixedMarginOverlap (times1 times2 : List Nat) (fixedMargin : Nat) : Nat :=
  fmSweep (fmSorted times1 times2 fixedMargin) 0 0 0 0

/-! ## Core B: the co-occurrence sparse matrix (`cooccurrence.go`)

`CoOccurrenceData` is `map[uint64]map[uint64]uint64`; we embed the two-level
map as a flat partial function on the pair of internal ids (the Go code only
ever creates an empty inner map right before writing to it, so the two-level
structure is observationally the flat one for the operations modelled here).
Go map mutation through the pointer fields becomes explicit state passing:
each operation returns the new `CoOcc` state. -/

/-- Session identifiers.  Go `SessionID` is a string compared
byte-lexicographically; the code touches it only through decidable equality
and the strict total order of `Compare`, so session ids are embedded as
naturals carrying exactly that interface. -/
abbrev SessionID := Nat

structure CoOcc where
  data : Nat → Nat → Option Nat
  idMapping : SessionID → Option Nat
  nextId : Nat

/-- `NewCoOccurrence(nil)`: empty data, empty id mapping, `nextId = 1`
(0 is never used as an id). -/
def emptyCoOcc : CoOcc := ⟨fun _ _ => none, fun _ => none, 1⟩

/-- `getInternalId`: return the interned id of `sid`, interning it with the
next available id (and bumping the counter) when absent. -/
def getInternalId (c : CoOcc) (sid : SessionID) : Nat × CoOcc :=
  match c.idMapping sid with
  | some cid => (cid, c)
  | none =>
    (c.nextId,
     { c with
        idMapping := fun s => if s = sid then some c.nextId else c.idMapping s,
        nextId := c.nextId + 1 })

/-- Store `v` at the (ordered) cell `(i, j)` of the data map. -/
def setData (c : CoOcc) (i j v : Nat) : CoOcc :=
  { c with
      data := fun a b => if a = i ∧ b = j then some v else c.data a b }

/-- `CalcAndSet(ov1, ov2)`.  The overlap value `ov1.Overlap(ov2)` is an
opaque computation of the pluggable kernel; it enters here as the
`totalOverlap` argument.  Equal session ids and zero overlap are no-ops;
otherwise both sids are interned and the value is stored with the cell
ordered by the *session-id* comparison (`sid1 < sid2` lexicographically
puts `cid1` first, else `cid2` first). -/
def CalcAndSet (c : CoOcc) (sid1 sid2 : SessionID) (totalOverlap : Nat) : CoOcc :=
  if sid1 = sid2 then c
  else if totalOverlap = 0 then c
  else
    let p1 := getInternalId c sid1
    let p2 := getInternalId p1.2 sid2
    if sid1 < sid2 then setData p2.2 p1.1 p2.1 totalOverlap
    else setData p2.2 p2.1 p1.1 totalOverlap

/-- `Get(sid1, sid2)`: interns *both* arguments (even absent ones), then
reads the cell ordered by the session-id comparison, defaulting absent
entries to 0 (Go's zero value).  Returns the value and the (possibly
mutated) state. -/
def Get (c : CoOcc) (sid1 sid2 : SessionID) : Nat × CoOcc :=
  let p1 := getInternalId c sid1
  let p2 := getInternalId p1.2 sid2
  if sid1 < sid2 then ((p2.2.data p1.1 p2.1).getD 0, p2.2)
  else ((p2.2.data p2.1 p1.1).getD 0, p2.2)

/-- States of the matrix reachable from `NewCoOccurrence(nil)` by any
sequence of `CalcAndSet` insert operations. -/
inductive Reachable : CoOcc → Prop
  | base : Reachable emptyCoOcc
  | step (c : CoOcc) (sid1 sid2 : SessionID) (v : Nat) :
      Reachable c → Reachable (CalcAndSet c sid1 sid2 v)

/-! ## Core A: the userspace TUN substrate (`tun_userspace.go`)

Addresses and ports are embedded as `Nat`.  The `NATKey.IP` field in Go is
the `String()` form of the (already rewritten) network-flow endpoint; the
string form is injective on addresses, so the key carries the address
itself.  Parsing by gopacket is embedded at the layer level: a packet is an
optional network layer plus an optional transport layer; a packet whose IP
protocol is ICMP has *no* transport layer in gopacket (`TransportLayer()`
returns nil), while SCTP/UDPLite/RUDP yield a transport layer that is
neither `*layers.TCP` nor `*layers.UDP` (`otherTransport` below). -/

inductive NetLayer
  | v4 (src dst : Nat) (ttl : Nat)
  | v6 (src dst : Nat) (hopLimit : Nat)
deriving DecidableEq

inductive TransLayer
  | tcp (srcPort dstPort : Nat)
  | udp (srcPort dstPort : Nat)
  | otherTransport
deriving DecidableEq

structure Packet where
  net : Option NetLayer
  trans : Option TransLayer
deriving DecidableEq

structure NATKey where
  ip : Nat
  port : Nat
deriving DecidableEq

/-- The flow table `natTable`; the value is the `NATValue.IP` original
source address. -/
def NatTable : Type := NATKey → Option Nat

def NatTable.emptyTable : NatTable := fun _ => none

def NatTable.insert (tbl : NatTable) (k : NATKey) (v : Nat) : NatTable :=
  fun k' => if k' = k then some v else tbl k'

/-- The `publicIP` configuration fixed at substrate construction. -/
structure PublicIP where
  v4 : Option Nat
  v6 : Option Nat

inductive WriteErr
  | noPublicV4
  | noPublicV6
  | noNetworkLayer
  | unsupportedTransport
  | sendFailed
deriving DecidableEq

/-- Result of `processWritePacket`: the `(count, error)` return value, the
packet submitted to `UserNat.SendPacket` (if any), and the flow table
afterwards. -/
structure WriteResult where
  count : Nat
  err : Option WriteErr
  sent : Option Packet
  natTable : NatTable

/-- Shared tail of `processWritePacket` after the network layer has been
rewritten: locate the transport layer (missing one: ignore with success;
unsupported kind: error), build the NAT key from the *rewritten* source
address (`NetworkFlow().Src()` reads the already-overwritten `SrcIP`) and
the L4 *source* port, submit through the NAT, and on success record the
flow entry. -/
def processWriteTail (tbl : NatTable) (sendOk : Bool) (origSrc pubAddr : Nat)
    (net' : NetLayer) (trans : Option TransLayer) : WriteResult :=
  match trans with
  | none => ⟨0, none, none, tbl⟩
  | some TransLayer.otherTransport => ⟨0, some WriteErr.unsupportedTransport, none, tbl⟩
  | some (TransLayer.tcp sp dp) =>
    if sendOk then
      ⟨1, none, some ⟨some net', some (TransLayer.tcp sp dp)⟩,
        tbl.insert ⟨pubAddr, sp⟩ origSrc⟩
    else ⟨0, some WriteErr.sendFailed, none, tbl⟩
  | some (TransLayer.udp sp dp) =>
    if sendOk then
      ⟨1, none, some ⟨some net', some (TransLayer.udp sp dp)⟩,
        tbl.insert ⟨pubAddr, sp⟩ origSrc⟩
    else ⟨0, some WriteErr.sendFailed, none, tbl⟩

/-- `processWritePacket`.  `sendOk` abstracts the boolean returned by
`UserNat.SendPacket`.  TTL / HopLimit is a `uint8` decremented by one with
Go wrapping (`x - 1` on u8 is `(x + 255) % 256`); there is no underflow
check in the source.  Serialisation is modelled as the identity on the
rewritten layers (its error path cannot fire in this embedding). -/
def processWritePacket (pub : PublicIP) (tbl : NatTable) (sendOk : Bool)
    (p : Packet) : WriteResult :=
  match p.net with
  | none => ⟨0, some WriteErr.noNetworkLayer, none, tbl⟩
  | some (NetLayer.v4 s d ttl) =>
    match pub.v4 with
    | none => ⟨0, some WriteErr.noPublicV4, none, tbl⟩
    | some pubAddr =>
      processWriteTail tbl sendOk s pubAddr
        (NetLayer.v4 pubAddr d ((ttl + 255) % 256)) p.trans
  | some (NetLayer.v6 s d hop) =>
    match pub.v6 with
    | none => ⟨0, some WriteErr.noPublicV6, none, tbl⟩
    | some pubAddr =>
      processWriteTail tbl sendOk s pubAddr
        (NetLayer.v6 pubAddr d ((hop + 255) % 256)) p.trans

/-- `processNatReceivedPacket`: drop (return `none`) on a missing network
layer, missing transport layer, unsupported transport kind, or an absent
flow-table entry; otherwise overwrite the destination address with the
recorded original source (TTL/HopLimit untouched) and emit the packet. -/
def processNatReceivedPacket (tbl : NatTable) (p : Packet) : Option Packet :=
  match p.net with
  | none => none
  | some nl =>
    match p.trans with
    | none => none
    | some TransLayer.otherTransport => none
    | some tl =>
      let dstAddr := match nl with
        | NetLayer.v4 _ d _ => d
        | NetLayer.v6 _ d _ => d
      let dstPort := match tl with
        | TransLayer.tcp _ dp => dp
        | TransLayer.udp _ dp => dp
        | TransLayer.otherTransport => 0
      match tbl ⟨dstAddr, dstPort⟩ with
      | none => none
      | some origSrc =>
        let nl' := match nl with
          | NetLayer.v4 s _ ttl => NetLayer.v4 s origSrc ttl
          | NetLayer.v6 s _ hop => NetLayer.v6 s origSrc hop
        some ⟨some nl', some tl⟩

/-- The conceptual return packet: source and destination swapped, both at
the network and the transport layer. -/
def returnPacket (p : Packet) : Packet :=
  { net := p.net.map fun nl =>
      match nl with
      | NetLayer.v4 s d ttl => NetLayer.v4 d s ttl
      | NetLayer.v6 s d hop => NetLayer.v6 d s hop,
    trans := p.trans.map fun tl =>
      match tl with
      | TransLayer.tcp sp dp => TransLayer.tcp dp sp
      | TransLayer.udp sp dp => TransLayer.udp dp sp
      | TransLayer.otherTransport => TransLayer.otherTransport }

def Packet.srcAddr : Packet → Option Nat
  | ⟨some (NetLayer.v4 s _ _), _⟩ => some s
  | ⟨some (NetLayer.v6 s _ _), _⟩ => some s
  | ⟨none, _⟩ => none

def Packet.dstAddr : Packet → Option Nat
  | ⟨some (NetLayer.v4 _ d _), _⟩ => some d
  | ⟨some (NetLayer.v6 _ d _), _⟩ => some d
  | ⟨none, _⟩ => none

/-- The TTL (v4) or HopLimit (v6) field. -/
def Packet.ttlField : Packet → Option Nat
  | ⟨some (NetLayer.v4 _ _ ttl), _⟩ => some ttl
  | ⟨some (NetLayer.v6 _ _ hop), _⟩ => some hop
  | ⟨none, _⟩ => none

def Packet.l4SrcPort : Packet → Option Nat
  | ⟨_, some (TransLayer.tcp sp _)⟩ => some sp
  | ⟨_, some (TransLayer.udp sp _)⟩ => some sp
  | ⟨_, some TransLayer.otherTransport⟩ => none
  | ⟨_, none⟩ => none

def Packet.l4DstPort : Packet → Option Nat
  | ⟨_, some (TransLayer.tcp _ dp)⟩ => some dp
  | ⟨_, some (TransLayer.udp _ dp)⟩ => some dp
  | ⟨_, some TransLayer.otherTransport⟩ => none
  | ⟨_, none⟩ => none

/-- The public address the substrate would use for this packet's IP
version. -/
def PublicIP.forPacket (pub : PublicIP) (p : Packet) : Option Nat :=
  match p.net with
  | some (NetLayer.v4 _ _ _) => pub.v4
  | some (NetLayer.v6 _ _ _) => pub.v6
  | none => none

/-! ### The read path (`Read`)

`bufs[0]` is a byte buffer; `recv` is the value taken from the `natRcv`
channel (`none` models a closed channel).  Go's `copy` returns
`min (len src) (len dst)`; the result records the `(count, error)` return,
`sizes[0]`, and the buffer contents after the copy. -/

inductive ReadErr
  | closedChannel
  | packetTooLarge
deriving DecidableEq

structure ReadResult where
  count : Nat
  err : Option ReadErr
  size : Nat
  buf : List Nat
deriving DecidableEq

/-- `Read` for a single buffer: receive a datagram, copy it into
`buf[offset:]`, and only fail with `packetTooLarge` when the number of
bytes copied exceeds the room - which `copy` makes impossible. -/
def tunRead (buf : List Nat) (offset : Nat) (recv : Option (List Nat)) :
    ReadResult :=
  match recv with
  | none => ⟨0, some ReadErr.closedChannel, 0, buf⟩
  | some data =>
    let readInto := buf.drop offset
    let n := min data.length readInto.length
    let buf' := buf.take offset ++ data.take n ++ readInto.drop n
    if readInto.length < n then ⟨0, some ReadErr.packetTooLarge, 0, buf'⟩
    else ⟨1, none, n, buf'⟩

/-! ## Theorems: Core A (claims C1-C4, C9) -/

/-- C1 (counterexample).  Outbound IPv4 `10 → 20`, UDP `5000 → 53`, public
v4 address `9`, NAT send succeeds: the packet is processed successfully,
yet the flow table holds no entry under the claimed key - the destination
address paired with the destination port `(20, 53)` - and instead holds
the entry `(9, 5000) ↦ 10`, keyed by the rewritten (public) source address
and the source port. -/
theorem flow_key_claim_fails_concretely :
    (processWritePacket ⟨some 9, none⟩ NatTable.emptyTable true
        ⟨some (NetLayer.v4 10 20 64), some (TransLayer.udp 5000 53)⟩).count = 1 ∧
    (processWritePacket ⟨some 9, none⟩ NatTable.emptyTable true
        ⟨some (NetLayer.v4 10 20 64), some (TransLayer.udp 5000 53)⟩).err = none ∧
    (processWritePacket ⟨some 9, none⟩ NatTable.emptyTable true
        ⟨some (NetLayer.v4 10 20 64), some (TransLayer.udp 5000 53)⟩).natTable
      ⟨20, 53⟩ = none ∧
    (processWritePacket ⟨some 9, none⟩ NatTable.emptyTable true
        ⟨some (NetLayer.v4 10 20 64), some (TransLayer.udp 5000 53)⟩).natTable
      ⟨9, 5000⟩ = some 10 := by
  refine ⟨rfl, rfl, ?_, ?_⟩ <;> decide

/-- C1 (amended).  For every outbound packet processed successfully by the
write path, the flow table afterwards contains an entry whose key is the
packet's rewritten public-side *source* address paired with its L4 *source*
port, and whose value is the packet's original (pre-rewrite) source
address. -/
theorem flow_table_entry_after_write (pub : PublicIP) (tbl : NatTable)
    (sendOk : Bool) (p : Packet)
    (h : (processWritePacket pub tbl sendOk p).count = 1) :
    ∃ pubAddr sp s,
      pub.forPacket p = some pubAddr ∧ p.l4SrcPort = some sp ∧
      p.srcAddr = some s ∧
      (processWritePacket pub tbl sendOk p).natTable ⟨pubAddr, sp⟩ = some s := by
  obtain ⟨net, trans⟩ := p
  match net with
  | none => simp [processWritePacket] at h
  | some (NetLayer.v4 s d ttl) =>
    match hpv : pub.v4 with
    | none => simp [processWritePacket, hpv] at h
    | some pubAddr =>
      simp only [processWritePacket, hpv] at h
      match trans with
      | none => simp [processWriteTail] at h
      | some TransLayer.otherTransport => simp [processWriteTail] at h
      | some (TransLayer.tcp sp dp) =>
        cases sendOk with
        | false => simp [processWriteTail] at h
        | true =>
          exact ⟨pubAddr, sp, s, by simp [PublicIP.forPacket, hpv], rfl, rfl,
            by simp [processWritePacket, hpv, processWriteTail, NatTable.insert]⟩
      | some (TransLayer.udp sp dp) =>
        cases sendOk with
        | false => simp [processWriteTail] at h
        | true =>
          exact ⟨pubAddr, sp, s, by simp [PublicIP.forPacket, hpv], rfl, rfl,
            by simp [processWritePacket, hpv, processWriteTail, NatTable.insert]⟩
  | some (NetLayer.v6 s d hop) =>
    match hpv : pub.v6 with
    | none => simp [processWritePacket, hpv] at h
    | some pubAddr =>
      simp only [processWritePacket, hpv] at h
      match trans with
      | none => simp [processWriteTail] at h
      | some TransLayer.otherTransport => simp [processWriteTail] at h
      | some (TransLayer.tcp sp dp) =>
        cases sendOk with
        | false => simp [processWriteTail] at h
        | true =>
          exact ⟨pubAddr, sp, s, by simp [PublicIP.forPacket, hpv], rfl, rfl,
            by simp [processWritePacket, hpv, processWriteTail, NatTable.insert]⟩
      | some (TransLayer.udp sp dp) =>
        cases sendOk with
        | false => simp [processWriteTail] at h
        | true =>
          exact ⟨pubAddr, sp, s, by simp [PublicIP.forPacket, hpv], rfl, rfl,
            by simp [processWritePacket, hpv, processWriteTail, NatTable.insert]⟩

/-- C1 witness: the amended theorem applied to the concrete A1-style
scenario. -/
theorem flow_table_entry_after_write_witness :
    (processWritePacket ⟨some 9, none⟩ NatTable.emptyTable true
        ⟨some (NetLayer.v4 10 20 64), some (TransLayer.udp 5000 53)⟩).count = 1 ∧
    ∃ pubAddr sp s,
      PublicIP.forPacket ⟨some 9, none⟩
          ⟨some (NetLayer.v4 10 20 64), some (TransLayer.udp 5000 53)⟩ = some pubAddr ∧
      Packet.l4SrcPort ⟨some (NetLayer.v4 10 20 64), some (TransLayer.udp 5000 53)⟩ = some sp ∧
      Packet.srcAddr ⟨some (NetLayer.v4 10 20 64), some (TransLayer.udp 5000 53)⟩ = some s ∧
      (processWritePacket ⟨some 9, none⟩ NatTable.emptyTable true
          ⟨some (NetLayer.v4 10 20 64), some (TransLayer.udp 5000 53)⟩).natTable
        ⟨pubAddr, sp⟩ = some s :=
  ⟨rfl, flow_table_entry_after_write _ _ _ _ rfl⟩

/-- C2.  If an outbound packet is processed successfully, then feeding the
emitted packet's return packet (source/destination and ports swapped)
through the inbound rewrite against the resulting flow table succeeds, and
the inbound result's destination address is the outbound input's original
source address. -/
theorem roundtrip_restores_original_source (pub : PublicIP) (tbl : NatTable)
    (sendOk : Bool) (p : Packet)
    (h : (processWritePacket pub tbl sendOk p).count = 1) :
    ∃ q r,
      (processWritePacket pub tbl sendOk p).sent = some q ∧
      processNatReceivedPacket (processWritePacket pub tbl sendOk p).natTable
        (returnPacket q) = some r ∧
      r.dstAddr = p.srcAddr := by
  obtain ⟨net, trans⟩ := p
  match net with
  | none => simp [processWritePacket] at h
  | some (NetLayer.v4 s d ttl) =>
    match hpv : pub.v4 with
    | none => simp [processWritePacket, hpv] at h
    | some pubAddr =>
      simp only [processWritePacket, hpv] at h
      match trans with
      | none => simp [processWriteTail] at h
      | some TransLayer.otherTransport => simp [processWriteTail] at h
      | some (TransLayer.tcp sp dp) =>
        cases sendOk with
        | false => simp [processWriteTail] at h
        | true =>
          refine ⟨⟨some (NetLayer.v4 pubAddr d ((ttl + 255) % 256)),
                   some (TransLayer.tcp sp dp)⟩,
                  ⟨some (NetLayer.v4 d s ((ttl + 255) % 256)),
                   some (TransLayer.tcp dp sp)⟩, ?_, ?_, rfl⟩
          · simp [processWritePacket, hpv, processWriteTail]
          · simp [processWritePacket, hpv, processWriteTail, returnPacket,
              processNatReceivedPacket, NatTable.insert]
      | some (TransLayer.udp sp dp) =>
        cases sendOk with
        | false => simp [processWriteTail] at h
        | true =>
          refine ⟨⟨some (NetLayer.v4 pubAddr d ((ttl + 255) % 256)),
                   some (TransLayer.udp sp dp)⟩,
                  ⟨some (NetLayer.v4 d s ((ttl + 255) % 256)),
                   some (TransLayer.udp dp sp)⟩, ?_, ?_, rfl⟩
          · simp [processWritePacket, hpv, processWriteTail]
          · simp [processWritePacket, hpv, processWriteTail, returnPacket,
              processNatReceivedPacket, NatTable.insert]
  | some (NetLayer.v6 s d hop) =>
    match hpv : pub.v6 with
    | none => simp [processWritePacket, hpv] at h
    | some pubAddr =>
      simp only [processWritePacket, hpv] at h
      match trans with
      | none => simp [processWriteTail] at h
      | some TransLayer.otherTransport => simp [processWriteTail] at h
      | some (TransLayer.tcp sp dp) =>
        cases sendOk with
        | false => simp [processWriteTail] at h
        | true =>
          refine ⟨⟨some (NetLayer.v6 pubAddr d ((hop + 255) % 256)),
                   some (TransLayer.tcp sp dp)⟩,
                  ⟨some (NetLayer.v6 d s ((hop + 255) % 256)),
                   some (TransLayer.tcp dp sp)⟩, ?_, ?_, rfl⟩
          · simp [processWritePacket, hpv, processWriteTail]
          · simp [processWritePacket, hpv, processWriteTail, returnPacket,
              processNatReceivedPacket, NatTable.insert]
      | some (TransLayer.udp sp dp) =>
        cases sendOk with
        | false => simp [processWriteTail] at h
        | true =>
          refine ⟨⟨some (NetLayer.v6 pubAddr d ((hop + 255) % 256)),
                   some (TransLayer.udp sp dp)⟩,
                  ⟨some (NetLayer.v6 d s ((hop + 255) % 256)),
                   some (TransLayer.udp dp sp)⟩, ?_, ?_, rfl⟩
          · simp [processWritePacket, hpv, processWriteTail]
          · simp [processWritePacket, hpv, processWriteTail, returnPacket,
              processNatReceivedPacket, NatTable.insert]

/-- C2 witness: the round-trip theorem at the concrete A1/A2 scenario. -/
theorem roundtrip_restores_original_source_witness :
    (processWritePacket ⟨some 9, none⟩ NatTable.emptyTable true
        ⟨some (NetLayer.v4 10 20 64), some (TransLayer.udp 5000 53)⟩).count = 1 ∧
    ∃ q r,
      (processWritePacket ⟨some 9, none⟩ NatTable.emptyTable true
          ⟨some (NetLayer.v4 10 20 64), some (TransLayer.udp 5000 53)⟩).sent = some q ∧
      processNatReceivedPacket
        (processWritePacket ⟨some 9, none⟩ NatTable.emptyTable true
            ⟨some (NetLayer.v4 10 20 64), some (TransLayer.udp 5000 53)⟩).natTable
        (returnPacket q) = some r ∧
      r.dstAddr = Packet.srcAddr
        ⟨some (NetLayer.v4 10 20 64), some (TransLayer.udp 5000 53)⟩ :=
  ⟨rfl, roundtrip_restores_original_source _ _ _ _ rfl⟩

/-- C3 (counterexample).  An outbound IPv4 packet with TTL 1 is *not*
rejected: it is emitted (and counted as sent) with TTL 0; and one with
TTL 0 is emitted with TTL 255 (u8 wrap-around). -/
theorem ttl_underflow_not_rejected :
    (processWritePacket ⟨some 9, none⟩ NatTable.emptyTable true
        ⟨some (NetLayer.v4 10 20 1), some (TransLayer.udp 5000 53)⟩).count = 1 ∧
    (processWritePacket ⟨some 9, none⟩ NatTable.emptyTable true
        ⟨some (NetLayer.v4 10 20 1), some (TransLayer.udp 5000 53)⟩).sent =
      some ⟨some (NetLayer.v4 9 20 0), some (TransLayer.udp 5000 53)⟩ ∧
    (processWritePacket ⟨some 9, none⟩ NatTable.emptyTable true
        ⟨some (NetLayer.v4 10 20 0), some (TransLayer.udp 5000 53)⟩).sent =
      some ⟨some (NetLayer.v4 9 20 255), some (TransLayer.udp 5000 53)⟩ := by
  refine ⟨rfl, ?_, ?_⟩ <;> decide

/-- C3 (amended).  The outbound rewrite decrements TTL (v4) / HopLimit (v6)
with wrapping u8 arithmetic and performs no underflow check: every
successfully processed packet is emitted with TTL/HopLimit equal to the
input value minus one modulo 256 - in particular TTL 1 yields an emitted
packet with TTL 0 and TTL 0 yields 255. -/
theorem ttl_decrement_wraps (pub : PublicIP) (tbl : NatTable)
    (sendOk : Bool) (p : Packet)
    (h : (processWritePacket pub tbl sendOk p).count = 1) :
    ∃ q t,
      (processWritePacket pub tbl sendOk p).sent = some q ∧
      p.ttlField = some t ∧ q.ttlField = some ((t + 255) % 256) := by
  obtain ⟨net, trans⟩ := p
  match net with
  | none => simp [processWritePacket] at h
  | some (NetLayer.v4 s d ttl) =>
    match hpv : pub.v4 with
    | none => simp [processWritePacket, hpv] at h
    | some pubAddr =>
      simp only [processWritePacket, hpv] at h ⊢
      match trans with
      | none => simp [processWriteTail] at h
      | some TransLayer.otherTransport => simp [processWriteTail] at h
      | some (TransLayer.tcp sp dp) =>
        cases sendOk with
        | false => simp [processWriteTail] at h
        | true =>
          exact ⟨⟨some (NetLayer.v4 pubAddr d ((ttl + 255) % 256)),
                  some (TransLayer.tcp sp dp)⟩, ttl,
            by simp [processWritePacket, hpv, processWriteTail], rfl, rfl⟩
      | some (TransLayer.udp sp dp) =>
        cases sendOk with
        | false => simp [processWriteTail] at h
        | true =>
          exact ⟨⟨some (NetLayer.v4 pubAddr d ((ttl + 255) % 256)),
                  some (TransLayer.udp sp dp)⟩, ttl,
            by simp [processWritePacket, hpv, processWriteTail], rfl, rfl⟩
  | some (NetLayer.v6 s d hop) =>
    match hpv : pub.v6 with
    | none => simp [processWritePacket, hpv] at h
    | some pubAddr =>
      simp only [processWritePacket, hpv] at h ⊢
      match trans with
      | none => simp [processWriteTail] at h
      | some TransLayer.otherTransport => simp [processWriteTail] at h
      | some (TransLayer.tcp sp dp) =>
        cases sendOk with
        | false => simp [processWriteTail] at h
        | true =>
          exact ⟨⟨some (NetLayer.v6 pubAddr d ((hop + 255) % 256)),
                  some (TransLayer.tcp sp dp)⟩, hop,
            by simp [processWritePacket, hpv, processWriteTail], rfl, rfl⟩
      | some (TransLayer.udp sp dp) =>
        cases sendOk with
        | false => simp [processWriteTail] at h
        | true =>
          exact ⟨⟨some (NetLayer.v6 pubAddr d ((hop + 255) % 256)),
                  some (TransLayer.udp sp dp)⟩, hop,
            by simp [processWritePacket, hpv, processWriteTail], rfl, rfl⟩

/-- C3 witness: the TTL-1 packet, via the amended theorem. -/
theorem ttl_decrement_wraps_witness :
    (processWritePacket ⟨some 9, none⟩ NatTable.emptyTable true
        ⟨some (NetLayer.v4 10 20 1), some (TransLayer.udp 5000 53)⟩).count = 1 ∧
    ∃ q t,
      (processWritePacket ⟨some 9, none⟩ NatTable.emptyTable true
          ⟨some (NetLayer.v4 10 20 1), some (TransLayer.udp 5000 53)⟩).sent = some q ∧
      Packet.ttlField
          ⟨some (NetLayer.v4 10 20 1), some (TransLayer.udp 5000 53)⟩ = some t ∧
      q.ttlField = some ((t + 255) % 256) :=
  ⟨rfl, ttl_decrement_wraps _ _ _ _ rfl⟩

/-- C4 (counterexample).  An outbound IPv4 packet whose transport layer is
present but neither TCP nor UDP (gopacket yields such a layer for e.g.
SCTP) is *not* discarded with success: `processWritePacket` returns 0
packets with an `unsupported transport layer type` error. -/
theorem unsupported_l4_returns_error :
    (processWritePacket ⟨some 9, none⟩ NatTable.emptyTable true
        ⟨some (NetLayer.v4 10 20 64), some TransLayer.otherTransport⟩).count = 0 ∧
    (processWritePacket ⟨some 9, none⟩ NatTable.emptyTable true
        ⟨some (NetLayer.v4 10 20 64), some TransLayer.otherTransport⟩).err =
      some WriteErr.unsupportedTransport ∧
    (processWritePacket ⟨some 9, none⟩ NatTable.emptyTable true
        ⟨some (NetLayer.v4 10 20 64), some TransLayer.otherTransport⟩).err ≠ none := by
  refine ⟨rfl, rfl, ?_⟩; decide

/-- C4 (amended).  On the write path, a packet with *no* transport layer
(e.g. ICMP, whose gopacket parse has no transport layer) is silently
discarded with success - 0 packets sent, no error, nothing submitted, flow
table untouched - while a packet whose transport layer is present but of an
unsupported kind yields 0 packets *with* an error. -/
theorem l4_discard_split (pub : PublicIP) (tbl : NatTable) (sendOk : Bool)
    (p : Packet) (pubAddr : Nat) (hp : pub.forPacket p = some pubAddr) :
    (p.trans = none →
      processWritePacket pub tbl sendOk p = ⟨0, none, none, tbl⟩) ∧
    (p.trans = some TransLayer.otherTransport →
      processWritePacket pub tbl sendOk p =
        ⟨0, some WriteErr.unsupportedTransport, none, tbl⟩) := by
  obtain ⟨net, trans⟩ := p
  match net with
  | none => simp [PublicIP.forPacket] at hp
  | some (NetLayer.v4 s d ttl) =>
    simp only [PublicIP.forPacket] at hp
    constructor <;> intro ht <;>
      simp only at ht <;> subst ht <;>
      simp [processWritePacket, hp, processWriteTail]
  | some (NetLayer.v6 s d hop) =>
    simp only [PublicIP.forPacket] at hp
    constructor <;> intro ht <;>
      simp only at ht <;> subst ht <;>
      simp [processWritePacket, hp, processWriteTail]

/-- C4 witness: the amended theorem applied to an ICMP-like packet (no
transport layer). -/
theorem l4_discard_split_witness :
    PublicIP.forPacket ⟨some 9, none⟩ ⟨some (NetLayer.v4 10 20 64), none⟩ =
      some 9 ∧
    processWritePacket ⟨some 9, none⟩ NatTable.emptyTable true
        ⟨some (NetLayer.v4 10 20 64), none⟩ =
      ⟨0, none, none, NatTable.emptyTable⟩ :=
  ⟨rfl, (l4_discard_split ⟨some 9, none⟩ NatTable.emptyTable true
      ⟨some (NetLayer.v4 10 20 64), none⟩ 9 rfl).1 rfl⟩

/-! ## Theorems: the co-occurrence matrix (claims C8, C10) -/

structure CoInv (c : CoOcc) : Prop where
  bound : ∀ s cid, c.idMapping s = some cid → cid < c.nextId
  inj : ∀ s1 s2 cid, c.idMapping s1 = some cid → c.idMapping s2 = some cid → s1 = s2
  entries : ∀ i j v, c.data i j = some v →
    0 < v ∧ ∃ s1 s2, s1 < s2 ∧ c.idMapping s1 = some i ∧ c.idMapping s2 = some j

theorem getInternalId_hit {c : CoOcc} {sid : SessionID} {cid : Nat}
    (h : c.idMapping sid = some cid) : getInternalId c sid = (cid, c) := by
  unfold getInternalId
  rw [h]

theorem getInternalId_miss_fst {c : CoOcc} {sid : SessionID}
    (h : c.idMapping sid = none) : (getInternalId c sid).1 = c.nextId := by
  unfold getInternalId
  rw [h]

theorem getInternalId_miss_map {c : CoOcc} {sid : SessionID}
    (h : c.idMapping sid = none) (s : SessionID) :
    (getInternalId c sid).2.idMapping s =
      if s = sid then some c.nextId else c.idMapping s := by
  unfold getInternalId
  rw [h]

theorem getInternalId_miss_next {c : CoOcc} {sid : SessionID}
    (h : c.idMapping sid = none) :
    (getInternalId c sid).2.nextId = c.nextId + 1 := by
  unfold getInternalId
  rw [h]

theorem getInternalId_data (c : CoOcc) (sid : SessionID) :
    (getInternalId c sid).2.data = c.data := by
  unfold getInternalId
  cases h : c.idMapping sid <;> rfl

theorem getInternalId_inv (c : CoOcc) (sid : SessionID) (h : CoInv c) :
    CoInv (getInternalId c sid).2 ∧
    (getInternalId c sid).2.idMapping sid = some (getInternalId c sid).1 ∧
    (∀ s cid, c.idMapping s = some cid → (getInternalId c sid).2.idMapping s = some cid) ∧
    (getInternalId c sid).2.data = c.data ∧
    c.nextId ≤ (getInternalId c sid).2.nextId := by
  cases hm : c.idMapping sid with
  | some cid =>
    rw [getInternalId_hit hm]
    exact ⟨h, hm, fun _ _ hs => hs, rfl, le_refl _⟩
  | none =>
    refine ⟨?_, ?_, ?_, getInternalId_data c sid, ?_⟩
    · constructor
      · intro s cid hs
        rw [getInternalId_miss_map hm] at hs
        rw [getInternalId_miss_next hm]
        by_cases hss : s = sid
        · rw [if_pos hss] at hs
          cases hs
          omega
        · rw [if_neg hss] at hs
          have := h.bound s cid hs
          omega
      · intro s1 s2 cid h1 h2
        rw [getInternalId_miss_map hm] at h1 h2
        by_cases hs1 : s1 = sid <;> by_cases hs2 : s2 = sid
        · rw [hs1, hs2]
        · rw [if_pos hs1] at h1
          rw [if_neg hs2] at h2
          cases h1
          have := h.bound s2 _ h2
          omega
        · rw [if_neg hs1] at h1
          rw [if_pos hs2] at h2
          cases h2
          have := h.bound s1 _ h1
          omega
        · rw [if_neg hs1] at h1
          rw [if_neg hs2] at h2
          exact h.inj s1 s2 cid h1 h2
      · intro i j v hv
        rw [getInternalId_data c sid] at hv
        obtain ⟨hpos, s1, s2, hlt, h1, h2⟩ := h.entries i j v hv
        have hn1 : s1 ≠ sid := by
          intro hs
          subst hs
          rw [h1] at hm
          cases hm
        have hn2 : s2 ≠ sid := by
          intro hs
          subst hs
          rw [h2] at hm
          cases hm
        refine ⟨hpos, s1, s2, hlt, ?_, ?_⟩
        · rw [getInternalId_miss_map hm, if_neg hn1]
          exact h1
        · rw [getInternalId_miss_map hm, if_neg hn2]
          exact h2
    · rw [getInternalId_miss_map hm, if_pos rfl, getInternalId_miss_fst hm]
    · intro s cid hs
      have hss : s ≠ sid := by
        intro h'
        subst h'
        rw [hs] at hm
        cases hm
      rw [getInternalId_miss_map hm, if_neg hss]
      exact hs
    · rw [getInternalId_miss_next hm]
      omega

theorem calcAndSet_inv (c : CoOcc) (sid1 sid2 : SessionID) (v : Nat)
    (h : CoInv c) : CoInv (CalcAndSet c sid1 sid2 v) := by
  unfold CalcAndSet
  by_cases he : sid1 = sid2
  · rw [if_pos he]; exact h
  rw [if_neg he]
  by_cases hv : v = 0
  · rw [if_pos hv]; exact h
  rw [if_neg hv]
  obtain ⟨h1inv, h1map, h1mono, h1data, h1next⟩ := getInternalId_inv c sid1 h
  obtain ⟨h2inv, h2map, h2mono, h2data, h2next⟩ :=
    getInternalId_inv (getInternalId c sid1).2 sid2 h1inv
  have hmap1 : (getInternalId (getInternalId c sid1).2 sid2).2.idMapping sid1 =
      some (getInternalId c sid1).1 := h2mono _ _ h1map
  by_cases hlt : sid1 < sid2
  · rw [if_pos hlt]
    refine ⟨h2inv.bound, h2inv.inj, ?_⟩
    intro i j w hw
    simp only [setData] at hw
    by_cases hij : i = (getInternalId c sid1).1 ∧
        j = (getInternalId (getInternalId c sid1).2 sid2).1
    · rw [if_pos hij] at hw
      obtain ⟨hi, hj⟩ := hij
      cases hw
      exact ⟨Nat.pos_of_ne_zero hv, sid1, sid2, hlt, hi ▸ hmap1, hj ▸ h2map⟩
    · rw [if_neg hij] at hw
      exact h2inv.entries i j w hw
  · rw [if_neg hlt]
    have hgt : sid2 < sid1 := lt_of_le_of_ne (Nat.le_of_not_lt hlt) (Ne.symm he)
    refine ⟨h2inv.bound, h2inv.inj, ?_⟩
    intro i j w hw
    simp only [setData] at hw
    by_cases hij : i = (getInternalId (getInternalId c sid1).2 sid2).1 ∧
        j = (getInternalId c sid1).1
    · rw [if_pos hij] at hw
      obtain ⟨hi, hj⟩ := hij
      cases hw
      exact ⟨Nat.pos_of_ne_zero hv, sid2, sid1, hgt, hi ▸ h2map, hj ▸ hmap1⟩
    · rw [if_neg hij] at hw
      exact h2inv.entries i j w hw

theorem reachable_inv (c : CoOcc) (h : Reachable c) : CoInv c := by
  induction h with
  | base =>
    refine ⟨?_, ?_, ?_⟩
    · intro s cid hs
      cases hs
    · intro s1 s2 cid h1 h2
      cases h1
    · intro i j v hv
      cases hv
  | step c sid1 sid2 v _ ih => exact calcAndSet_inv c sid1 sid2 v ih

/-- C8 (amended).  In every state reachable by any sequence of
`CalcAndSet` insert operations, every stored entry `(i, j, v)` has `v > 0`
and `i ≠ j`, there is never a mirrored `(j, i)` entry, and the cell is
canonical for the *session-id* order: `i` and `j` are the internal ids of
sids `s1 < s2` - but `i < j` over the internal indices need not hold. -/
theorem cooccurrence_entries_canonical (c : CoOcc) (h : Reachable c)
    (i j v : Nat) (hv : c.data i j = some v) :
    0 < v ∧ i ≠ j ∧ c.data j i = none ∧
    ∃ s1 s2, s1 < s2 ∧ c.idMapping s1 = some i ∧ c.idMapping s2 = some j := by
  have hinv := reachable_inv c h
  obtain ⟨hpos, s1, s2, hlt, h1, h2⟩ := hinv.entries i j v hv
  have hne12 : s1 ≠ s2 := Nat.ne_of_lt hlt
  refine ⟨hpos, ?_, ?_, s1, s2, hlt, h1, h2⟩
  · intro hij
    subst hij
    exact hne12 (hinv.inj s1 s2 i h1 h2)
  · cases hji : c.data j i with
    | none => rfl
    | some w =>
      obtain ⟨_, s1', s2', hlt', h1', h2'⟩ := hinv.entries j i w hji
      have e1 : s1' = s2 := hinv.inj s1' s2 j h1' h2
      have e2 : s2' = s1 := hinv.inj s2' s1 i h2' h1
      subst e1
      subst e2
      exact absurd hlt (Nat.lt_asymm hlt')

/-- C8 (counterexample).  Inserting the pair with the larger session id
first (sids 2 then 1, overlap 5) interns `sid = 2` as internal id 1 and
`sid = 1` as internal id 2; the canonical cell keyed by *session-id* order
is then `(i, j) = (2, 1)` with `i > j`: the claimed `i < j` over internal
u64 indices fails. -/
theorem cooccurrence_index_order_fails :
    (CalcAndSet emptyCoOcc 2 1 5).data 2 1 = some 5 ∧ ¬ (2 < 1) := by
  constructor
  · decide
  · decide

/-- C8 witness: the amended theorem at the one-insert state, entry
`(2, 1, 5)`. -/
theorem cooccurrence_entries_canonical_witness :
    0 < 5 ∧ (2 : Nat) ≠ 1 ∧ (CalcAndSet emptyCoOcc 2 1 5).data 1 2 = none ∧
    ∃ s1 s2, s1 < s2 ∧
      (CalcAndSet emptyCoOcc 2 1 5).idMapping s1 = some 2 ∧
      (CalcAndSet emptyCoOcc 2 1 5).idMapping s2 = some 1 :=
  cooccurrence_entries_canonical _
    (Reachable.step _ _ _ _ Reachable.base) 2 1 5 (by decide)

/-- C10.  `Get` is not read-only: on a reachable state, calling it with
two fresh session ids interns both - the first gets the next id, the
second the one after, the counter advances by two, other sids are
untouched, the data map is unchanged - and the returned value for the
absent cell is still 0. -/
theorem get_interns_missing_sids (c : CoOcc) (s1 s2 : SessionID)
    (hr : Reachable c) (h1 : c.idMapping s1 = none) (h2 : c.idMapping s2 = none)
    (hne : s1 ≠ s2) :
    (Get c s1 s2).1 = 0 ∧
    (Get c s1 s2).2.idMapping s1 = some c.nextId ∧
    (Get c s1 s2).2.idMapping s2 = some (c.nextId + 1) ∧
    (Get c s1 s2).2.nextId = c.nextId + 2 ∧
    (∀ s, s ≠ s1 → s ≠ s2 → (Get c s1 s2).2.idMapping s = c.idMapping s) ∧
    (Get c s1 s2).2.data = c.data := by
  have hinv := reachable_inv c hr
  have hdata_none : ∀ i j, c.nextId ≤ i ∨ c.nextId ≤ j → c.data i j = none := by
    intro i j hle
    cases hd : c.data i j with
    | none => rfl
    | some w =>
      obtain ⟨_, t1, t2, _, hm1, hm2⟩ := hinv.entries i j w hd
      have b1 := hinv.bound t1 i hm1
      have b2 := hinv.bound t2 j hm2
      omega
  have hne' : s2 ≠ s1 := Ne.symm hne
  have hm2 : (getInternalId c s1).2.idMapping s2 = none := by
    rw [getInternalId_miss_map h1, if_neg hne']
    exact h2
  have e1f := getInternalId_miss_fst h1
  have e2f := getInternalId_miss_fst hm2
  have e1n := getInternalId_miss_next h1
  have e2n := getInternalId_miss_next hm2
  have edata : (getInternalId (getInternalId c s1).2 s2).2.data = c.data := by
    rw [getInternalId_data, getInternalId_data]
  unfold Get
  refine ⟨?_, ?_, ?_, ?_, ?_, ?_⟩
  · by_cases hl : s1 < s2
    · rw [if_pos hl]
      simp only [edata, e1f, e2f, e1n]
      rw [hdata_none _ _ (Or.inl (le_refl _))]
      rfl
    · rw [if_neg hl]
      simp only [edata, e1f, e2f, e1n]
      rw [hdata_none _ _ (Or.inr (le_refl _))]
      rfl
  · have : (getInternalId (getInternalId c s1).2 s2).2.idMapping s1 =
        some c.nextId := by
      rw [getInternalId_miss_map hm2, if_neg hne]
      rw [getInternalId_miss_map h1, if_pos rfl]
    by_cases hl : s1 < s2 <;> simp only [if_pos, if_neg, hl, ite_true,
      ite_false, this]
  · have : (getInternalId (getInternalId c s1).2 s2).2.idMapping s2 =
        some (c.nextId + 1) := by
      rw [getInternalId_miss_map hm2, if_pos rfl, getInternalId_miss_next h1]
    by_cases hl : s1 < s2 <;> simp only [hl, ite_true, ite_false, this]
  · have : (getInternalId (getInternalId c s1).2 s2).2.nextId = c.nextId + 2 := by
      rw [getInternalId_miss_next hm2, getInternalId_miss_next h1]
    by_cases hl : s1 < s2 <;> simp only [hl, ite_true, ite_false, this]
  · intro s hs1 hs2
    have : (getInternalId (getInternalId c s1).2 s2).2.idMapping s =
        c.idMapping s := by
      rw [getInternalId_miss_map hm2, if_neg hs2, getInternalId_miss_map h1,
        if_neg hs1]
    by_cases hl : s1 < s2 <;> simp only [hl, ite_true, ite_false, this]
  · by_cases hl : s1 < s2 <;> simp only [hl, ite_true, ite_false, edata]

/-- C10 witness: fresh sids 7 and 9 on the empty matrix. -/
theorem get_interns_missing_sids_witness :
    (Get emptyCoOcc 7 9).1 = 0 ∧
    (Get emptyCoOcc 7 9).2.idMapping 7 = some 1 ∧
    (Get emptyCoOcc 7 9).2.idMapping 9 = some 2 ∧
    (Get emptyCoOcc 7 9).2.nextId = 3 := by
  obtain ⟨a, b, cc, d, _, _⟩ :=
    get_interns_missing_sids emptyCoOcc 7 9 Reachable.base rfl rfl (by decide)
  exact ⟨a, b, cc, d⟩

/-! ## Theorems: the fixed-margin kernel (claims C5-C7) -/

theorem sub64_of_le {a b : Nat} (h : b ≤ a) (ha : a < U64) : sub64 a b = a - b := by
  simp only [sub64, U64] at *; omega

theorem add64_of_lt {a b : Nat} (h : a + b < U64) : add64 a b = a + b := by
  simp only [add64, U64] at *; omega

theorem sub64_self (a : Nat) : sub64 a a = 0 := by
  simp [sub64, U64]

/-- Sweep helper: if every event sits at one time `c` and the sweep starts
with zero accumulated total (and either inactive counters or `last = c`),
the total stays zero: every accumulated gap has zero width. -/
theorem fmSweep_zero_of_const (c : Nat) :
    ∀ (evs : List fmEvent) (a1 a2 : Int) (last : Nat),
      (∀ e ∈ evs, e.eTime = c) → (¬ (0 < a1 ∧ 0 < a2) ∨ last = c) →
      fmSweep evs 0 a1 a2 last = 0
  | [], _, _, _, _, _ => rfl
  | e :: rest, a1, a2, last, h, hstart => by
    have he : e.eTime = c := h e (List.mem_cons_self e rest)
    have hrest : ∀ x ∈ rest, x.eTime = c := fun x hx => h x (List.mem_cons_of_mem e hx)
    simp only [fmSweep]
    have htot : (if 0 < a1 ∧ 0 < a2 then add64 0 (sub64 e.eTime last) else 0) = 0 := by
      rcases hstart with hs | hs
      · rw [if_neg hs]
      · subst hs
        rw [he, sub64_self]
        simp [add64, U64]
    rw [htot, he]
    exact fmSweep_zero_of_const c rest _ _ c hrest (Or.inr rfl)

/-- With margin 0, timestamps that all coincide produce zero overlap. -/
theorem fmOverlap_const_times (l1 l2 : List Nat) (c : Nat)
    (h1 : ∀ x ∈ l1, x = c) (h2 : ∀ x ∈ l2, x = c) (hc : c < U64) :
    FixedMarginOverlap l1 l2 0 = 0 := by
  have hev : ∀ e ∈ fmAddEvents l1 1 0 ++ fmAddEvents l2 2 0, e.eTime = c := by
    intro e he
    have htime : ∀ (l : List Nat) (li : Nat), (∀ x ∈ l, x = c) →
        e ∈ fmAddEvents l li 0 → e.eTime = c := by
      intro l li hl hmem
      simp only [fmAddEvents, List.mem_flatMap, List.mem_cons,
        List.not_mem_nil, or_false] at hmem
      obtain ⟨x, hx, hmem⟩ := hmem
      have hxc : x = c := hl x hx
      have hxU : x < U64 := by omega
      rcases hmem with h | h
      · subst h
        show sub64 x 0 = c
        rw [sub64_of_le (Nat.zero_le x) hxU]
        omega
      · subst h
        show add64 x 0 = c
        rw [add64_of_lt (show x + 0 < U64 by omega)]
        omega
    rcases List.mem_append.mp he with h | h
    · exact htime l1 1 h1 h
    · exact htime l2 2 h2 h
  have hev' : ∀ e ∈ fmSorted l1 l2 0, e.eTime = c := by
    intro e he
    exact hev e ((List.mem_insertionSort fmLe).mp he)
  exact fmSweep_zero_of_const c _ 0 0 0 hev' (Or.inl (by omega))

/-- C5 (counterexample).  The reference values do not hold for every `t`
and margin `m`: at `t = 0`, `m = 10` the wrapped lower endpoint `0 - m`
becomes huge, the sweep never sees both lists active, and the overlap is 0
instead of the claimed `2m` (and `[0, 4m]` against itself yields 0 instead
of `4m`). -/
theorem fm_reference_values_fail_at_zero :
    FixedMarginOverlap [0] [0] 10 = 0 ∧ 2 * 10 ≠ 0 ∧
    FixedMarginOverlap [0, 4 * 10] [0, 4 * 10] 10 = 0 ∧ 4 * 10 ≠ 0 := by
  decide

/-- C5 (amended).  The FixedMargin kernel reference values hold whenever
the expanded intervals stay inside u64, i.e. for every base `t` and margin
`m` with `m ≤ t` and `t + 5m < 2^64`: `A = [t]`, `B = [t]` yields `2m`;
`A = [t]`, `B = [t + 2m]` yields 0; `A = B = [t, t + 4m]` yields `4m`. -/
theorem fm_reference_values_amended (t m : Nat) (hm : m ≤ t)
    (hb : t + 5 * m < U64) :
    FixedMarginOverlap [t] [t] m = 2 * m ∧
    FixedMarginOverlap [t] [t + 2 * m] m = 0 ∧
    FixedMarginOverlap [t, t + 4 * m] [t, t + 4 * m] m = 4 * m := by
  have htU : t < U64 := by omega
  rcases Nat.eq_zero_or_pos m with hz | hpos
  · subst hz
    have hall : ∀ x ∈ [t], x = t := by simp
    have hall2 : ∀ x ∈ [t + 2 * 0], x = t := by simp
    have hall4 : ∀ x ∈ [t, t + 4 * 0], x = t := by simp
    refine ⟨?_, ?_, ?_⟩
    · rw [fmOverlap_const_times [t] [t] t hall hall htU]
    · rw [fmOverlap_const_times [t] [t + 2 * 0] t hall hall2 htU]
    · rw [fmOverlap_const_times [t, t + 4 * 0] [t, t + 4 * 0] t hall4 hall4 htU]
  · have h1U : t + m < U64 := by omega
    have s0 : sub64 t m = t - m := sub64_of_le hm htU
    have a0 : add64 t m = t + m := add64_of_lt h1U
    have s2 : sub64 (t + 2 * m) m = t + m := by
      rw [sub64_of_le (by omega) (by omega)]; omega
    have a2 : add64 (t + 2 * m) m = t + 3 * m := by
      rw [add64_of_lt (by omega)]; omega
    have s4 : sub64 (t + 4 * m) m = t + 3 * m := by
      rw [sub64_of_le (by omega) (by omega)]; omega
    have a4 : add64 (t + 4 * m) m = t + 5 * m := by
      rw [add64_of_lt (by omega)]; omega
    have p1 : t - m < t + m := by omega
    have p2 : t - m < t + 3 * m := by omega
    have p3 : t - m < t + 5 * m := by omega
    have p4 : t + m < t + 3 * m := by omega
    have p5 : t + m < t + 5 * m := by omega
    have p6 : t + 3 * m < t + 5 * m := by omega
    have n1 : ¬ (t + m < t - m) := by omega
    have n2 : ¬ (t + m = t - m) := by omega
    have n3 : ¬ (t + 3 * m < t + m) := by omega
    have n4 : ¬ (t + 3 * m = t + m) := by omega
    have n5 : ¬ (t + 5 * m < t + 3 * m) := by omega
    have n6 : ¬ (t + 5 * m = t + 3 * m) := by omega
    have n7 : ¬ (t + 3 * m < t - m) := by omega
    have n8 : ¬ (t + 3 * m = t - m) := by omega
    have n9 : ¬ (t + 5 * m < t - m) := by omega
    have n10 : ¬ (t + 5 * m = t - m) := by omega
    have n11 : ¬ (t + 5 * m < t + m) := by omega
    have n12 : ¬ (t + 5 * m = t + m) := by omega
    refine ⟨?_, ?_, ?_⟩
    · have e1 : fmAddEvents [t] 1 m = [⟨t - m, 1, 1⟩, ⟨t + m, 2, 1⟩] := by
        simp [fmAddEvents, s0, a0]
      have e2 : fmAddEvents [t] 2 m = [⟨t - m, 1, 2⟩, ⟨t + m, 2, 2⟩] := by
        simp [fmAddEvents, s0, a0]
      rw [FixedMarginOverlap, fmSorted, e1, e2]
      simp only [List.cons_append, List.nil_append]
      simp [List.insertionSort, List.orderedInsert, fmLe, fmLess, p1, n1, n2,
        fmSweep]
      simp only [add64, sub64, U64] at *
      omega
    · have e1 : fmAddEvents [t] 1 m = [⟨t - m, 1, 1⟩, ⟨t + m, 2, 1⟩] := by
        simp [fmAddEvents, s0, a0]
      have e2 : fmAddEvents [t + 2 * m] 2 m = [⟨t + m, 1, 2⟩, ⟨t + 3 * m, 2, 2⟩] := by
        simp [fmAddEvents, s2, a2]
      rw [FixedMarginOverlap, fmSorted, e1, e2]
      simp only [List.cons_append, List.nil_append]
      simp [List.insertionSort, List.orderedInsert, fmLe, fmLess, p1, p4, n1, n2,
        n3, n4, fmSweep]
      simp only [add64, sub64, U64] at *
      omega
    · have e1 : fmAddEvents [t, t + 4 * m] 1 m =
          [⟨t - m, 1, 1⟩, ⟨t + m, 2, 1⟩, ⟨t + 3 * m, 1, 1⟩, ⟨t + 5 * m, 2, 1⟩] := by
        simp [fmAddEvents, s0, a0, s4, a4]
      have e2 : fmAddEvents [t, t + 4 * m] 2 m =
          [⟨t - m, 1, 2⟩, ⟨t + m, 2, 2⟩, ⟨t + 3 * m, 1, 2⟩, ⟨t + 5 * m, 2, 2⟩] := by
        simp [fmAddEvents, s0, a0, s4, a4]
      rw [FixedMarginOverlap, fmSorted, e1, e2]
      simp only [List.cons_append, List.nil_append]
      simp [List.insertionSort, List.orderedInsert, fmLe, fmLess, p1, p2, p3,
        p4, p5, p6, n1, n2, n3, n4, n5, n6, n7, n8, n9, n10, n11, n12, fmSweep]
      simp only [add64, sub64, U64] at *
      omega

/-- C5 witness: the amended reference values at `t = 100`, `m = 10`. -/
theorem fm_reference_values_amended_witness :
    (10 ≤ 100 ∧ 100 + 5 * 10 < U64) ∧
    (FixedMarginOverlap [100] [100] 10 = 2 * 10 ∧
     FixedMarginOverlap [100] [100 + 2 * 10] 10 = 0 ∧
     FixedMarginOverlap [100, 100 + 4 * 10] [100, 100 + 4 * 10] 10 = 4 * 10) :=
  ⟨⟨by decide, by decide⟩, fm_reference_values_amended 100 10 (by decide) (by decide)⟩

/-- C6 (counterexample).  No clamping and no saturation happens: for
`t = 0 < margin = 10` the lower endpoint wraps to `2^64 - 10` instead of
clamping to 0, and for `t = 2^64 - 1` the upper endpoint wraps to 9
instead of saturating to `2^64 - 1`. -/
theorem fm_no_clamp_no_saturate :
    (fmAddEvents [0] 1 10).map fmEvent.eTime = [U64 - 10, 10] ∧
    U64 - 10 ≠ 0 ∧
    (fmAddEvents [U64 - 1] 1 10).map fmEvent.eTime = [U64 - 11, 9] ∧
    (9 : Nat) ≠ U64 - 1 := by
  refine ⟨?_, ?_, ?_, ?_⟩ <;> decide

/-- C6 (amended).  The expanded interval endpoints are computed with
wrapping u64 arithmetic: when `t < margin` the lower endpoint is
`t + (2^64 - margin)` (at least `2^64 - margin`, far from 0), and when
`t + margin` overflows the upper endpoint is `t + margin - 2^64`
(strictly below `margin`, not saturated). -/
theorem fm_endpoints_wrap_amended (t m : Nat) (ht : t < U64) (hm : m < U64) :
    (fmAddEvents [t] 1 m).map fmEvent.eTime = [sub64 t m, add64 t m] ∧
    (t < m → sub64 t m = t + (U64 - m) ∧ U64 - m ≤ sub64 t m) ∧
    (U64 ≤ t + m → add64 t m = t + m - U64 ∧ add64 t m < m) := by
  refine ⟨by simp [fmAddEvents], ?_, ?_⟩ <;>
  · intro h
    constructor <;> (simp only [sub64, add64, U64] at *; omega)

/-- C6 witness: the amended wrap behaviour at `t = 0`, `m = 10`. -/
theorem fm_endpoints_wrap_amended_witness :
    (0 < U64 ∧ 10 < U64) ∧
    ((fmAddEvents [0] 1 10).map fmEvent.eTime = [sub64 0 10, add64 0 10] ∧
     (0 < 10 → sub64 0 10 = 0 + (U64 - 10) ∧ U64 - 10 ≤ sub64 0 10) ∧
     (U64 ≤ 0 + 10 → add64 0 10 = 0 + 10 - U64 ∧ add64 0 10 < 10)) :=
  ⟨⟨by decide, by decide⟩, fm_endpoints_wrap_amended 0 10 (by decide) (by decide)⟩

/-- C7 (counterexample).  For `A = [10]`, `B = [30]`, `margin = 10`, the
end event of list 1 and the start event of list 2 coincide at time 20, and
the comparator orders the *start* event first (`eType` 1 sorts before 2):
the claimed End-before-Start tie-break does not hold. -/
theorem fm_sort_tiebreak_start_first :
    fmSorted [10] [30] 10 =
      [⟨0, 1, 1⟩, ⟨20, 1, 2⟩, ⟨20, 2, 1⟩, ⟨40, 2, 2⟩] ∧
    fmLess ⟨20, 1, 2⟩ ⟨20, 2, 1⟩ ∧ ¬ fmLess ⟨20, 2, 1⟩ ⟨20, 1, 2⟩ := by
  refine ⟨?_, ?_, ?_⟩ <;> decide

/-- C7 (amended).  The merged event list is sorted by (time ascending,
then kind with *Start* ordered before *End*, then list id ascending): at
equal times a start event is always strictly before an end event under the
comparator, never the other way around.  (A touching boundary still
accumulates no width, because the two events carry the same time.) -/
theorem fm_sort_order_amended (times1 times2 : List Nat) (margin : Nat) :
    List.Sorted fmLe (fmSorted times1 times2 margin) ∧
    (∀ time i j : Nat, fmLess ⟨time, 1, i⟩ ⟨time, 2, j⟩) ∧
    (∀ time i j : Nat, ¬ fmLess ⟨time, 2, i⟩ ⟨time, 1, j⟩) := by
  refine ⟨List.sorted_insertionSort fmLe _, ?_, ?_⟩
  · intro time i j
    simp [fmLess]
  · intro time i j
    simp [fmLess]

/-- C9.  The buffer-too-small guard in `Read` compares the value returned
by `copy` - already clamped to the buffer length - so it can never fire:
a 3-byte datagram read into a 2-byte buffer is silently truncated to
2 bytes and reported as a successful 1-packet read with `sizes[0] = 2`. -/
theorem read_truncates_oversized_datagram :
    tunRead [0, 0] 0 (some [1, 2, 3]) =
      ⟨1, none, 2, [1, 2]⟩ := by
  decide

end Spec2Proof
